import Mathlib

/-!
Verification development for the office-tracker backend.

The definitions below are a shallow embedding of the core logic of the backend:
the RBAC permission utilities (lib/permissions.ts), the authentication
helpers, and the API route handlers for attendance, delegations, the
admin statistics reset and the office-capacity week view.  Opaque string
identifiers (uuids) are modelled as naturals; calendar dates and
timestamps are modelled as naturals (days); attendance statuses are the
lowercase strings the zod schemas accept.  Route handlers are modelled as
pure functions from a database snapshot and an (optional) authenticated
principal to an HTTP-style outcome plus the updated database.
-/

namespace OfficeTracker

/-- The three roles of the system (prisma enum UserRole). -/
inductive UserRole where
  | REPORTER
  | CHAPTER_LEAD
  | TRIBE_LEAD
deriving DecidableEq, Repr

/-- A user row: id, profile fields, role, and the optional upward link to a
chapter lead (column chapterLeadId). -/
structure User where
  id : Nat
  name : String
  email : String
  role : UserRole
  chapterLeadId : Option Nat
deriving DecidableEq, Repr

/-- An attendance row, keyed uniquely by (userId, date); status is stored as
the lowercase string the zod schemas validate. -/
structure AttendanceRecord where
  id : Nat
  userId : Nat
  date : Nat
  status : String
  notes : Option String
deriving DecidableEq, Repr

/-- A delegation row: a time-boxed grant from delegatorId to delegateId with
a soft-delete isActive flag. -/
structure Delegation where
  id : Nat
  delegatorId : Nat
  delegateId : Nat
  startDate : Nat
  endDate : Nat
  isActive : Bool
deriving DecidableEq, Repr

/-- An office-capacity row, keyed by weekday name. -/
structure OfficeCapacity where
  dayOfWeek : String
  capacity : Nat
deriving DecidableEq, Repr

/-- A snapshot of the backing store. -/
structure Db where
  users : List User
  attendance : List AttendanceRecord
  delegations : List Delegation
  capacities : List OfficeCapacity
deriving DecidableEq, Repr

/-- HTTP-style outcome of a route handler: apiResponse(data, status) or
apiError(message, status). -/
inductive Outcome (α : Type) where
  | success (httpStatus : Nat) (val : α)
  | failure (httpStatus : Nat) (msg : String)
deriving DecidableEq, Repr

/-- prisma.user.findUnique(where: id). -/
def findUser (db : Db) (userId : Nat) : Option User :=
  db.users.find? (fun u => u.id == userId)

/-- prisma.attendanceRecord.findUnique(where: id). -/
def findAttendanceById (db : Db) (recordId : Nat) : Option AttendanceRecord :=
  db.attendance.find? (fun r => r.id == recordId)

/-- isTribeLead from lib/permissions.ts. -/
def isTribeLead (user : User) : Bool :=
  decide (user.role = UserRole.TRIBE_LEAD)

/-- isChapterLead from lib/permissions.ts. -/
def isChapterLead (user : User) : Bool :=
  decide (user.role = UserRole.CHAPTER_LEAD)

/-- isReporter from lib/permissions.ts. -/
def isReporter (user : User) : Bool :=
  decide (user.role = UserRole.REPORTER)

/-- canAllocateAttendance from lib/permissions.ts: self always; tribe lead
always; chapter lead iff the target user exists and its chapterLeadId equals
the id of the allocator (a missing target or a null link compares unequal, hence
false); reporters never for others.  The delegations table is not read. -/
def canAllocateAttendance (db : Db) (allocator : User) (targetUserId : Nat) : Bool :=
  if allocator.id == targetUserId then true
  else if isTribeLead allocator then true
  else if isChapterLead allocator then
    match findUser db targetUserId with
    | some target => target.chapterLeadId == some allocator.id
    | none => false
  else false

/-- getAccessibleUserIds from lib/permissions.ts: tribe lead sees every user
id; chapter lead sees self plus direct reports; everyone else sees self only.
The delegations table is not read. -/
def getAccessibleUserIds (db : Db) (currentUser : User) : List Nat :=
  if isTribeLead currentUser then db.users.map (fun u => u.id)
  else if isChapterLead currentUser then
    currentUser.id ::
      (db.users.filter (fun u => u.chapterLeadId == some currentUser.id)).map (fun u => u.id)
  else [currentUser.id]

/-- The currently-effective-delegation query of GET /api/delegations/active:
isActive and startDate ≤ now ≤ endDate for the given delegate. -/
def hasActiveDelegation (db : Db) (userId : Nat) (now : Nat) : Bool :=
  db.delegations.any (fun d =>
    d.delegateId == userId && d.isActive
      && decide (d.startDate ≤ now) && decide (now ≤ d.endDate))

/-- The status vocabulary of createAttendanceSchema (self-service POST). -/
def selfServiceStatuses : List String := ["office", "remote", "absent", "vacation"]

/-- The narrower status vocabulary of the schema of the allocate endpoint. -/
def allocateStatuses : List String := ["office", "remote", "off"]

/-- The `notes || null` normalization both write routes apply before
storing. -/
def normalizeNotes (notes : Option String) : Option String :=
  match notes with
  | some s => if s = "" then none else some s
  | none => none

/-- The unique key userId_date of the attendance table. -/
def keyMatches (userId date : Nat) (r : AttendanceRecord) : Bool :=
  r.userId == userId && r.date == date

/-- prisma.attendanceRecord.upsert on the unique key (userId, date): update
status and notes when a row with the key exists, else create a new row.
Returns the resulting record together with the updated table. -/
def upsertAttendance (recs : List AttendanceRecord) (userId date : Nat)
    (status : String) (notes : Option String) (freshId : Nat) :
    AttendanceRecord × List AttendanceRecord :=
  match recs.find? (keyMatches userId date) with
  | some old =>
      ({ old with status := status, notes := notes },
       recs.map (fun r =>
         if keyMatches userId date r
         then { r with status := status, notes := notes } else r))
  | none =>
      let newRec : AttendanceRecord :=
        { id := freshId, userId := userId, date := date, status := status, notes := notes }
      (newRec, recs ++ [newRec])

/-- The number of stored attendance rows with the key (userId, date). -/
def countByUserDate (recs : List AttendanceRecord) (userId date : Nat) : Nat :=
  (recs.filter (keyMatches userId date)).length

/-- POST /api/attendance (self-service upsert): 401 without a principal, 400
on a status outside the schema vocabulary, 403 unless canAllocateAttendance,
else upsert and 201 with the resulting record. -/
def attendancePOST (db : Db) (principal : Option User) (userId date : Nat)
    (status : String) (notes : Option String) (freshId : Nat) :
    Outcome AttendanceRecord × Db :=
  match principal with
  | none => (.failure 401 "Authentication required", db)
  | some user =>
    if ¬ (status ∈ selfServiceStatuses) then
      (.failure 400 "Invalid enum value", db)
    else if canAllocateAttendance db user userId then
      let result := upsertAttendance db.attendance userId date status (normalizeNotes notes) freshId
      (.success 201 result.1, { db with attendance := result.2 })
    else
      (.failure 403 "You do not have permission to allocate attendance for this user", db)

/-- The where-clause of GET /api/attendance: userId restricted to the allowed
list, optional date bounds, optional status equality. -/
def matchesAttendanceQuery (allowed : List Nat) (startDate endDate : Option Nat)
    (status : Option String) (r : AttendanceRecord) : Bool :=
  allowed.contains r.userId
    && (match startDate with
        | some s => decide (s ≤ r.date)
        | none => true)
    && (match endDate with
        | some e => decide (r.date ≤ e)
        | none => true)
    && (match status with
        | some st => r.status == st
        | none => true)

/-- GET /api/attendance: 401 without a principal; computes the accessible id
set; a named target outside that set is a 403; otherwise returns the records
of the (narrowed) accessible set filtered by the remaining predicates. -/
def attendanceGET (db : Db) (principal : Option User) (userId : Option Nat)
    (startDate endDate : Option Nat) (status : Option String) :
    Outcome (List AttendanceRecord) :=
  match principal with
  | none => .failure 401 "Authentication required"
  | some user =>
    let accessibleUserIds := getAccessibleUserIds db user
    match userId with
    | some uid =>
      if accessibleUserIds.contains uid then
        .success 200 (db.attendance.filter
          (matchesAttendanceQuery [uid] startDate endDate status))
      else
        .failure 403 "You do not have permission to access the attendance of this user"
    | none =>
      .success 200 (db.attendance.filter
        (matchesAttendanceQuery accessibleUserIds startDate endDate status))

/-- GET /api/attendance/week: 401 without a principal, else every attendance
record whose date lies in the resolved week window, with no per-user
filtering.  The window endpoints stand for the Monday..Sunday range the
handler computes from the week parameter or the current date. -/
def attendanceWeekGET (db : Db) (principal : Option User) (startDate endDate : Nat) :
    Outcome (List AttendanceRecord) :=
  match principal with
  | none => .failure 401 "Authentication required"
  | some _ =>
    .success 200 (db.attendance.filter
      (fun r => decide (startDate ≤ r.date) && decide (r.date ≤ endDate)))

/-- GET /api/attendance/[id]: 401 without a principal, 404 when no record has
the id, else the record together with the included owning user row; no
permission check beyond authentication. -/
def attendanceByIdGET (db : Db) (principal : Option User) (recordId : Nat) :
    Outcome (AttendanceRecord × Option User) :=
  match principal with
  | none => .failure 401 "Authentication required"
  | some _ =>
    match findAttendanceById db recordId with
    | none => .failure 404 "Attendance record not found"
    | some r => .success 200 (r, findUser db r.userId)

/-- POST /api/attendance/allocate: 401 without a principal; reporters are
rejected outright; 400 on a status outside the narrower vocabulary; 400 on a
self target; 403 unless canAllocateAttendance; 404 when the target user does
not exist; a chapter lead is re-checked against the direct-report relation;
else upsert and 201. -/
def allocatePOST (db : Db) (principal : Option User) (userId date : Nat)
    (status : String) (notes : Option String) (freshId : Nat) :
    Outcome AttendanceRecord × Db :=
  match principal with
  | none => (.failure 401 "Authentication required", db)
  | some user =>
    if isReporter user then
      (.failure 403 "Reporters cannot allocate attendance", db)
    else if ¬ (status ∈ allocateStatuses) then
      (.failure 400 "Status must be office, remote, or off", db)
    else if userId == user.id then
      (.failure 400 "Use POST api attendance for self-allocation", db)
    else if ¬ canAllocateAttendance db user userId then
      (.failure 403 "You do not have permission to allocate attendance for this user", db)
    else
      match findUser db userId with
      | none => (.failure 404 "User not found", db)
      | some target =>
        if isChapterLead user && ¬ (target.chapterLeadId == some user.id) then
          (.failure 403 "You can only allocate attendance for your direct reports", db)
        else
          let result := upsertAttendance db.attendance userId date status (normalizeNotes notes) freshId
          (.success 201 result.1, { db with attendance := result.2 })

/-- The updateMany step of POST /api/delegations: set isActive to false on
every active delegation of the given delegate. -/
def deactivateFor (dels : List Delegation) (delegateId : Nat) : List Delegation :=
  dels.map (fun d =>
    if d.delegateId == delegateId && d.isActive
    then { d with isActive := false } else d)

/-- POST /api/delegations: 401 without a principal, 403 unless the acting
principal is the tribe lead, 400 unless startDate < endDate, 404 when the
delegate does not exist; otherwise every active delegation of that delegate
is deactivated and the new delegation is inserted active. -/
def delegationsPOST (db : Db) (principal : Option User)
    (delegateId startDate endDate : Nat) (freshId : Nat) :
    Outcome Delegation × Db :=
  match principal with
  | none => (.failure 401 "Authentication required", db)
  | some user =>
    if ¬ isTribeLead user then
      (.failure 403 "Only Tribe Lead can create delegations", db)
    else if ¬ (startDate < endDate) then
      (.failure 400 "End date must be after start date", db)
    else
      match findUser db delegateId with
      | none => (.failure 404 "Delegate user not found", db)
      | some _ =>
        let deactivated := deactivateFor db.delegations delegateId
        let newDelegation : Delegation :=
          { id := freshId, delegatorId := user.id, delegateId := delegateId,
            startDate := startDate, endDate := endDate, isActive := true }
        (.success 201 newDelegation,
         { db with delegations := deactivated ++ [newDelegation] })

/-- POST /api/admin/reset-statistics: 401 without a principal; only a
principal whose own role is TRIBE_LEAD passes (delegations are not read);
on success one transaction deletes all attendance records, delegations and
office-capacity rows, preserving the user table. -/
def resetStatisticsPOST (db : Db) (principal : Option User) :
    Outcome String × Db :=
  match principal with
  | none => (.failure 401 "Authentication required", db)
  | some user =>
    if ¬ isTribeLead user then
      (.failure 403 "Only the Tribe Lead can reset statistics", db)
    else
      (.success 200 "All statistics have been reset successfully",
       { db with attendance := [], delegations := [], capacities := [] })

/-- The default capacities the office-capacity GET materializes when no
configuration exists. -/
def defaultCapacities : List OfficeCapacity :=
  [{ dayOfWeek := "Monday", capacity := 20 },
   { dayOfWeek := "Tuesday", capacity := 10 },
   { dayOfWeek := "Wednesday", capacity := 50 },
   { dayOfWeek := "Thursday", capacity := 20 },
   { dayOfWeek := "Friday", capacity := 50 }]

/-- The read-or-materialize step: when no capacity rows exist the defaults
are created and re-read, else the stored rows are used. -/
def materializeCapacities (caps : List OfficeCapacity) : List OfficeCapacity :=
  if caps.isEmpty then defaultCapacities else caps

/-- The count of attendance records with status office on one exact calendar
date (the bookings count of the office-capacity GET). -/
def countOfficeBookings (recs : List AttendanceRecord) (date : Nat) : Nat :=
  (recs.filter (fun r => r.date == date && r.status == "office")).length

/-- Math.round(bookings / capacity * 100) over exact arithmetic: the nearest
integer to 100 * booked / capacity, ties rounded up. -/
def roundPercent (booked capacity : Nat) : Nat :=
  (200 * booked + capacity) / (2 * capacity)

/-- One entry of the office-capacity weekData array. -/
structure DayOccupancy where
  day : String
  date : Nat
  capacity : Nat
  booked : Nat
  available : Int
  isOverbooked : Bool
  utilizationPercent : Nat
deriving DecidableEq, Repr

/-- The capacitySetting lookup of the office-capacity GET: the capacity of
the row whose dayOfWeek equals the name, or 0 when no row matches (the
`|| 0` fallback also sends a stored 0 to 0). -/
def capacityFor (caps : List OfficeCapacity) (dayName : String) : Nat :=
  match caps.find? (fun c => c.dayOfWeek == dayName) with
  | some c => c.capacity
  | none => 0

/-- One weekData entry of the office-capacity GET: capacity from the row for
the weekday name (0 when absent), booked office records on the date,
available clipped at 0, the overbooked flag, and the rounded utilization
percentage (0 when capacity is 0). -/
def dayOccupancy (caps : List OfficeCapacity) (recs : List AttendanceRecord)
    (dayName : String) (date : Nat) : DayOccupancy :=
  let booked := countOfficeBookings recs date
  let capacity := capacityFor caps dayName
  let available : Int := (capacity : Int) - (booked : Int)
  let clippedAvailable : Int := if available > 0 then available else 0
  let utilization : Nat := if capacity > 0 then roundPercent booked capacity else 0
  let overbooked : Bool := decide (booked > capacity)
  { day := dayName, date := date, capacity := capacity, booked := booked,
    available := clippedAvailable,
    isOverbooked := overbooked,
    utilizationPercent := utilization }

/-- The weekday names of the five weekData entries. -/
def weekDayNames : List String :=
  ["Monday", "Tuesday", "Wednesday", "Thursday", "Friday"]

/-- The weekData array: for i = 0..4, the occupancy of weekday i on the date
monday + i. -/
def weekData (caps : List OfficeCapacity) (recs : List AttendanceRecord)
    (monday : Nat) : List DayOccupancy :=
  weekDayNames.enum.map (fun p => dayOccupancy caps recs p.2 (monday + p.1))

/-- GET /api/office-capacity: 401 without a principal, 403 unless the role is
CHAPTER_LEAD or TRIBE_LEAD, else materialize the capacity rows when none
exist and return the weekData of the requested week. -/
def officeCapacityGET (db : Db) (principal : Option User) (monday : Nat) :
    Outcome (List DayOccupancy) × Db :=
  match principal with
  | none => (.failure 401 "Authentication required", db)
  | some user =>
    if ¬ (isChapterLead user || isTribeLead user) then
      (.failure 403 "Access denied", db)
    else
      let caps := materializeCapacities db.capacities
      (.success 200 (weekData caps db.attendance monday),
       { db with capacities := caps })

/-- A concrete organization used as evaluation input: the tribe lead. -/
def tribeLead : User :=
  { id := 1, name := "Tina", email := "tina@example.com",
    role := UserRole.TRIBE_LEAD, chapterLeadId := none }

/-- A concrete chapter lead. -/
def chapterLead : User :=
  { id := 2, name := "Carl", email := "carl@example.com",
    role := UserRole.CHAPTER_LEAD, chapterLeadId := none }

/-- A concrete reporter R1 reporting to the chapter lead; the delegate of the
sample delegation. -/
def reporterR1 : User :=
  { id := 3, name := "Rita", email := "rita@example.com",
    role := UserRole.REPORTER, chapterLeadId := some 2 }

/-- A concrete user U7, a reporter under the chapter lead and in particular
not a direct report of R1. -/
def userU7 : User :=
  { id := 7, name := "Uma", email := "uma@example.com",
    role := UserRole.REPORTER, chapterLeadId := some 2 }

/-- A stored attendance record of U7. -/
def recordOfU7 : AttendanceRecord :=
  { id := 100, userId := 7, date := 5, status := "office", notes := none }

/-- A delegation from the tribe lead to R1, active on days 3..7. -/
def delegationToR1 : Delegation :=
  { id := 10, delegatorId := 1, delegateId := 3,
    startDate := 3, endDate := 7, isActive := true }

/-- The concrete database snapshot the witnesses and counterexamples
evaluate on. -/
def exampleDb : Db :=
  { users := [tribeLead, chapterLead, reporterR1, userU7],
    attendance := [recordOfU7],
    delegations := [delegationToR1],
    capacities := [] }

/-- Twelve office bookings on date 0, for the overbooking instance. -/
def officeDozen : List AttendanceRecord :=
  (List.range 12).map (fun i =>
    { id := i, userId := i, date := 0, status := "office", notes := none })

/-- A map that fixes every element of a list leaves the list unchanged. -/
theorem map_eq_self_of_fixed {α : Type} (f : α → α) (l : List α)
    (h : ∀ x ∈ l, f x = x) : l.map f = l := by
  induction l with
  | nil => rfl
  | cons a t ih =>
    simp only [List.map_cons]
    rw [h a (by simp), ih (fun x hx => h x (by simp [hx]))]

/-- When find? hits an element and the filtered sublist has at most one
element, the filtered sublist is exactly that element. -/
theorem filter_eq_of_find?_of_le_one {α : Type} (p : α → Bool) (l : List α) (a : α)
    (hfind : l.find? p = some a) (hle : (l.filter p).length ≤ 1) :
    l.filter p = [a] := by
  induction l with
  | nil => simp at hfind
  | cons x t ih =>
    by_cases hx : p x
    · rw [List.find?_cons_of_pos _ hx] at hfind
      rw [List.filter_cons_of_pos hx] at hle ⊢
      simp only [List.length_cons] at hle
      have ht : t.filter p = [] :=
        List.length_eq_zero.mp (by omega)
      obtain rfl : x = a := Option.some.inj hfind
      simp [ht]
    · rw [List.find?_cons_of_neg _ hx] at hfind
      rw [List.filter_cons_of_neg hx] at hle ⊢
      exact ih hfind hle

/-- Claim C1 counterexample: on the concrete organization, R1 holds a
currently-effective delegation on day 5 (window 3..7) and U7 exists and is
not a direct report of R1, yet canAllocateAttendance is false and the upsert
of attendance for U7 fails with 403 — the claimed delegation clause of the
write-authorization rule does not exist in the code. -/
theorem c1_claim_false :
    hasActiveDelegation exampleDb reporterR1.id 5 = true ∧
    (findUser exampleDb 7).isSome = true ∧
    userU7.chapterLeadId ≠ some reporterR1.id ∧
    canAllocateAttendance exampleDb reporterR1 7 = false ∧
    attendancePOST exampleDb (some reporterR1) 7 5 "office" none 200 =
      (.failure 403 "You do not have permission to allocate attendance for this user",
       exampleDb) :=
  ⟨by decide, by decide, by decide, by decide, by decide⟩

/-- Claim C1 (amended): canAllocateAttendance(actor, target) is true iff
actor.id = target, or actor is TRIBE_LEAD, or actor is CHAPTER_LEAD and the
target exists with chapterLeadId = actor.id; the delegations table plays no
role (replacing it changes nothing), and a denied actor upserting attendance
receives NotAuthorized (403) with the database unchanged. -/
theorem c1_amended (db : Db) (actor : User) (targetUserId : Nat) :
    (canAllocateAttendance db actor targetUserId = true ↔
      actor.id = targetUserId ∨ actor.role = UserRole.TRIBE_LEAD ∨
        (actor.role = UserRole.CHAPTER_LEAD ∧
          ∃ target, findUser db targetUserId = some target ∧
            target.chapterLeadId = some actor.id)) ∧
    (∀ dels, canAllocateAttendance { db with delegations := dels } actor targetUserId =
        canAllocateAttendance db actor targetUserId) ∧
    (canAllocateAttendance db actor targetUserId = false →
      ∀ date status notes freshId, status ∈ selfServiceStatuses →
        attendancePOST db (some actor) targetUserId date status notes freshId =
          (.failure 403 "You do not have permission to allocate attendance for this user",
           db)) := by
  refine ⟨?_, fun dels => rfl, ?_⟩
  · unfold canAllocateAttendance isTribeLead isChapterLead
    split_ifs with h1 h2 h3
    · simp only [beq_iff_eq] at h1
      simp [h1]
    · simp only [decide_eq_true_eq] at h2
      simp [h2]
    · simp only [beq_iff_eq] at h1
      simp only [decide_eq_true_eq] at h2 h3
      cases hfind : findUser db targetUserId with
      | none => simp [hfind, h1, h2, h3]
      | some t => simp [hfind, h1, h2, h3, beq_iff_eq]
    · simp only [beq_iff_eq] at h1
      simp only [decide_eq_true_eq] at h2 h3
      simp [h1, h2, h3]
  · intro h date status notes freshId hst
    unfold attendancePOST
    simp [hst, h]

/-- Claim C1 amended witness: the tribe lead may allocate for U7. -/
theorem c1_amended_witness :
    canAllocateAttendance exampleDb tribeLead 7 = true :=
  (c1_amended exampleDb tribeLead 7).1.mpr (Or.inr (Or.inl rfl))

/-- Claim C2 counterexample: R1 holds a currently-effective delegation on
day 5, yet getAccessibleUserIds still returns only the own id of R1, not the
organization-wide id set the claim requires. -/
theorem c2_claim_false :
    hasActiveDelegation exampleDb reporterR1.id 5 = true ∧
    getAccessibleUserIds exampleDb reporterR1 = [reporterR1.id] ∧
    exampleDb.users.map (fun u => u.id) = [1, 2, 3, 7] ∧
    getAccessibleUserIds exampleDb reporterR1 ≠ exampleDb.users.map (fun u => u.id) :=
  ⟨by decide, by decide, by decide, by decide⟩

/-- Membership in getAccessibleUserIds, characterized by role. -/
theorem mem_getAccessibleUserIds (db : Db) (p : User) (x : Nat) :
    x ∈ getAccessibleUserIds db p ↔
      (p.role = UserRole.TRIBE_LEAD ∧ x ∈ db.users.map (fun u => u.id)) ∨
      (p.role = UserRole.CHAPTER_LEAD ∧
        (x = p.id ∨ ∃ u ∈ db.users, u.chapterLeadId = some p.id ∧ u.id = x)) ∨
      (p.role = UserRole.REPORTER ∧ x = p.id) := by
  unfold getAccessibleUserIds isTribeLead isChapterLead
  split_ifs with h1 h2
  · simp only [decide_eq_true_eq] at h1
    simp [h1]
  · simp only [decide_eq_true_eq] at h1 h2
    constructor
    · intro hx
      rcases List.mem_cons.mp hx with rfl | hx2
      · exact Or.inr (Or.inl ⟨h2, Or.inl rfl⟩)
      · obtain ⟨u, hu, rfl⟩ := List.mem_map.mp hx2
        obtain ⟨hu_mem, hcl⟩ := List.mem_filter.mp hu
        exact Or.inr (Or.inl ⟨h2, Or.inr
          ⟨u, hu_mem, by simpa [beq_iff_eq] using hcl, rfl⟩⟩)
    · rintro (⟨hr, _⟩ | ⟨_, (rfl | ⟨u, hu, hcl, rfl⟩)⟩ | ⟨hr, _⟩)
      · simp [h2] at hr
      · exact List.mem_cons_self _ _
      · exact List.mem_cons_of_mem _
          (List.mem_map.mpr ⟨u, List.mem_filter.mpr ⟨hu, by simp [beq_iff_eq, hcl]⟩, rfl⟩)
      · simp [h2] at hr
  · simp only [decide_eq_true_eq] at h1 h2
    have hrep : p.role = UserRole.REPORTER := by
      cases hr : p.role
      · rfl
      · exact absurd hr h2
      · exact absurd hr h1
    simp [hrep, List.mem_singleton, eq_comm]

/-- Claim C2 (amended): the accessible read set is all user ids for a
TRIBE_LEAD, self plus direct reports for a CHAPTER_LEAD, and self only for a
REPORTER, with no delegation escalation: the delegations table never affects
the result. -/
theorem c2_amended (db : Db) (p : User) (x : Nat) :
    (x ∈ getAccessibleUserIds db p ↔
      (p.role = UserRole.TRIBE_LEAD ∧ x ∈ db.users.map (fun u => u.id)) ∨
      (p.role = UserRole.CHAPTER_LEAD ∧
        (x = p.id ∨ ∃ u ∈ db.users, u.chapterLeadId = some p.id ∧ u.id = x)) ∨
      (p.role = UserRole.REPORTER ∧ x = p.id)) ∧
    (∀ dels, getAccessibleUserIds { db with delegations := dels } p =
        getAccessibleUserIds db p) :=
  ⟨mem_getAccessibleUserIds db p x, fun _ => rfl⟩

/-- Claim C2 amended witness: the read set of R1 contains the own id of
R1. -/
theorem c2_amended_witness :
    reporterR1.id ∈ getAccessibleUserIds exampleDb reporterR1 :=
  (c2_amended exampleDb reporterR1 reporterR1.id).1.mpr
    (Or.inr (Or.inr ⟨rfl, rfl⟩))

/-- Claim C3 counterexample: the week view hands R1 the record of U7 even
though U7 is outside the read set of R1 — a retrieval path that never
intersects with the accessible read set. -/
theorem c3_claim_false :
    attendanceWeekGET exampleDb (some reporterR1) 0 10 =
      .success 200 [recordOfU7] ∧
    recordOfU7.userId ∉ getAccessibleUserIds exampleDb reporterR1 :=
  ⟨by decide, by decide⟩

/-- Claim C3 (amended): the attendance list endpoint confines every returned
record to the accessible read set of the principal, but the week view
performs no read-set filtering at all: its result is identical for every
authenticated principal. -/
theorem c3_amended (db : Db) (u : User) (uid : Option Nat)
    (s e : Option Nat) (st : Option String) (l : List AttendanceRecord)
    (r : AttendanceRecord) :
    (attendanceGET db (some u) uid s e st = .success 200 l → r ∈ l →
      r.userId ∈ getAccessibleUserIds db u) ∧
    (∀ u2 sd ed, attendanceWeekGET db (some u) sd ed =
        attendanceWeekGET db (some u2) sd ed) := by
  refine ⟨?_, fun u2 sd ed => rfl⟩
  intro hres hmem
  unfold attendanceGET at hres
  cases uid with
  | none =>
    simp only [Outcome.success.injEq] at hres
    rw [← hres.2] at hmem
    have hq := (List.mem_filter.mp hmem).2
    simp only [matchesAttendanceQuery, Bool.and_eq_true] at hq
    exact List.elem_iff.mp hq.1.1.1
  | some target =>
    by_cases hacc : (getAccessibleUserIds db u).contains target
    · simp only [hacc, if_true, Outcome.success.injEq] at hres
      rw [← hres.2] at hmem
      have hq := (List.mem_filter.mp hmem).2
      simp only [matchesAttendanceQuery, Bool.and_eq_true] at hq
      have : r.userId ∈ [target] := List.elem_iff.mp hq.1.1.1
      rw [List.mem_singleton.mp this]
      exact List.elem_iff.mp hacc
    · simp only [hacc, if_false] at hres
      exact absurd hres (by simp)

/-- Claim C3 amended witness: a record returned by the list endpoint to the
tribe lead belongs to the read set of the tribe lead. -/
theorem c3_amended_witness :
    recordOfU7.userId ∈ getAccessibleUserIds exampleDb tribeLead :=
  (c3_amended exampleDb tribeLead none none none none [recordOfU7] recordOfU7).1
    (by decide) (List.mem_singleton.mpr rfl)

/-- Claim C4 counterexample: a query naming the nonexistent user 99, issued
by the tribe lead, fails with 403, not with the claimed distinct 404 — the
list path cannot distinguish a nonexistent target from an unauthorized
one. -/
theorem c4_claim_false :
    findUser exampleDb 99 = none ∧
    attendanceGET exampleDb (some tribeLead) (some 99) none none none =
      .failure 403 "You do not have permission to access the attendance of this user" :=
  ⟨by decide, by decide⟩

/-- Claim C4 (amended): the list endpoint rejects every target outside the
accessible set with 403, existent or not; only the allocate endpoint, whose
permission check precedes its existence check, returns 404 for a nonexistent
target — and only for an actor whose permission check does not consult the
target row (a tribe lead), while a chapter lead gets 403 for the same
nonexistent target. -/
theorem c4_amended (db : Db) (u : User) (uid : Nat)
    (s e : Option Nat) (st : Option String) (status : String)
    (date freshId : Nat) (notes : Option String) :
    (findUser db u.id = some u → findUser db uid = none →
      attendanceGET db (some u) (some uid) s e st =
        .failure 403 "You do not have permission to access the attendance of this user") ∧
    (u.role = UserRole.TRIBE_LEAD → uid ≠ u.id → findUser db uid = none →
      status ∈ allocateStatuses →
      allocatePOST db (some u) uid date status notes freshId =
        (.failure 404 "User not found", db)) ∧
    (u.role = UserRole.CHAPTER_LEAD → uid ≠ u.id → findUser db uid = none →
      status ∈ allocateStatuses →
      allocatePOST db (some u) uid date status notes freshId =
        (.failure 403 "You do not have permission to allocate attendance for this user",
         db)) := by
  refine ⟨?_, ?_, ?_⟩
  · intro hself hnone
    have hnotin : ∀ x ∈ db.users, x.id ≠ uid := by
      intro x hx
      have := List.find?_eq_none.mp hnone x hx
      simpa [beq_iff_eq] using this
    have huid_ne : uid ≠ u.id := by
      intro h
      exact hnotin u (List.mem_of_find?_eq_some hself) (h ▸ rfl)
    have hacc : ¬ ((getAccessibleUserIds db u).contains uid = true) := by
      rw [List.elem_iff, mem_getAccessibleUserIds]
      rintro (⟨_, hmem⟩ | ⟨_, (rfl | ⟨v, hv, _, hvid⟩)⟩ | ⟨_, rfl⟩)
      · obtain ⟨v, hv, hvid⟩ := List.mem_map.mp hmem
        exact hnotin v hv hvid
      · exact huid_ne rfl
      · exact hnotin v hv hvid
      · exact huid_ne rfl
    unfold attendanceGET
    simp [hacc]
    exact fun hm => hacc (List.elem_iff.mpr hm)
  · intro hrole hne hnone hst
    unfold allocatePOST canAllocateAttendance isReporter isTribeLead isChapterLead
    simp [hrole, hst, hnone, hne, Ne.symm hne, beq_iff_eq]
  · intro hrole hne hnone hst
    unfold allocatePOST canAllocateAttendance isReporter isTribeLead isChapterLead
    simp [hrole, hst, hnone, hne, Ne.symm hne, beq_iff_eq]

/-- Claim C4 amended witness: the three outcomes at the concrete database,
target id 99 (nonexistent). -/
theorem c4_amended_witness :
    attendanceGET exampleDb (some tribeLead) (some 99) none none none =
        .failure 403 "You do not have permission to access the attendance of this user" ∧
    allocatePOST exampleDb (some tribeLead) 99 5 "office" none 200 =
        (.failure 404 "User not found", exampleDb) ∧
    allocatePOST exampleDb (some chapterLead) 99 5 "office" none 200 =
        (.failure 403 "You do not have permission to allocate attendance for this user",
         exampleDb) :=
  ⟨(c4_amended exampleDb tribeLead 99 none none none "office" 5 200 none).1
      (by decide) (by decide),
   (c4_amended exampleDb tribeLead 99 none none none "office" 5 200 none).2.1
      rfl (by decide) (by decide) (by decide),
   (c4_amended exampleDb chapterLead 99 none none none "office" 5 200 none).2.2
      rfl (by decide) (by decide) (by decide)⟩

/-- After deactivateFor, no delegation of the delegate is still active. -/
theorem filter_active_deactivateFor (dels : List Delegation) (x : Nat) :
    (deactivateFor dels x).filter (fun del => del.delegateId == x && del.isActive) = [] := by
  rw [List.filter_eq_nil_iff]
  intro d hd
  unfold deactivateFor at hd
  obtain ⟨d0, hd0, rfl⟩ := List.mem_map.mp hd
  by_cases hc : (d0.delegateId == x && d0.isActive) = true
  · simp only [hc, if_true]
    simp
  · simp only [hc, if_false]
    exact fun h => hc h

/-- Claim C5: creating a delegation first deactivates every existing active
delegation of the delegate, then inserts the new one as active, so exactly
the new delegation is active for that delegate afterwards; under the normal
preconditions (tribe-lead actor, ordered dates, existing delegate) creation
always succeeds and the prior rows are retained (soft-deactivated), never
deleted. -/
theorem c5_single_active_delegation (db : Db) (u : User)
    (delegateId startDate endDate freshId : Nat)
    (hrole : u.role = UserRole.TRIBE_LEAD) (hdates : startDate < endDate)
    (hdelegate : (findUser db delegateId).isSome = true) :
    ∃ d db2,
      delegationsPOST db (some u) delegateId startDate endDate freshId =
        (.success 201 d, db2) ∧
      d = { id := freshId, delegatorId := u.id, delegateId := delegateId,
            startDate := startDate, endDate := endDate, isActive := true } ∧
      db2.delegations.filter (fun del => del.delegateId == delegateId && del.isActive) =
        [d] ∧
      db2.delegations.length = db.delegations.length + 1 ∧
      db2.users = db.users ∧ db2.attendance = db.attendance := by
  obtain ⟨t, hfind⟩ := Option.isSome_iff_exists.mp hdelegate
  refine ⟨{ id := freshId, delegatorId := u.id, delegateId := delegateId,
            startDate := startDate, endDate := endDate, isActive := true },
          { db with delegations := deactivateFor db.delegations delegateId ++
              [{ id := freshId, delegatorId := u.id, delegateId := delegateId,
                 startDate := startDate, endDate := endDate, isActive := true }] },
          ?_, rfl, ?_, ?_, rfl, rfl⟩
  · unfold delegationsPOST isTribeLead
    simp [hrole, hdates, hfind]
  · show (deactivateFor db.delegations delegateId ++ [_]).filter _ = _
    rw [List.filter_append, filter_active_deactivateFor]
    simp
  · show (deactivateFor db.delegations delegateId ++ [_]).length = _
    simp [deactivateFor]

/-- Claim C5 witness: creating a delegation for U7 on the concrete database
succeeds. -/
theorem c5_single_active_delegation_witness :
    ∃ d db2, delegationsPOST exampleDb (some tribeLead) 7 1 4 55 =
      (Outcome.success 201 d, db2) := by
  obtain ⟨d, db2, h, _⟩ :=
    c5_single_active_delegation exampleDb tribeLead 7 1 4 55 rfl
      (by decide) (by decide)
  exact ⟨d, db2, h⟩

/-- find? returns the head of the filtered list. -/
theorem find?_eq_head?_filter {α : Type} (p : α → Bool) (l : List α) :
    l.find? p = (l.filter p).head? := by
  induction l with
  | nil => rfl
  | cons x t ih =>
    by_cases hx : p x
    · rw [List.find?_cons_of_pos _ hx, List.filter_cons_of_pos hx]
      rfl
    · rw [List.find?_cons_of_neg _ hx, List.filter_cons_of_neg hx, ih]

/-- Updating status and notes preserves the upsert key. -/
theorem keyMatches_update (u d : Nat) (s : String) (n : Option String)
    (r : AttendanceRecord) :
    keyMatches u d (if keyMatches u d r
      then { r with status := s, notes := n } else r) = keyMatches u d r := by
  by_cases h : keyMatches u d r = true
  · rw [if_pos h]
    rfl
  · rw [if_neg h]

/-- Writing back the fields a record already has is the identity. -/
theorem record_update_self (r : AttendanceRecord) (s : String) (n : Option String)
    (hs : r.status = s) (hn : r.notes = n) :
    ({ r with status := s, notes := n } : AttendanceRecord) = r := by
  cases r
  cases hs
  cases hn
  rfl

/-- Upsert on a table whose rows for the key are exactly one record: the
update branch fires and rewrites exactly the key rows. -/
theorem upsertAttendance_existing (recs : List AttendanceRecord) (u d : Nat)
    (r1 : AttendanceRecord) (hone : recs.filter (keyMatches u d) = [r1])
    (s2 : String) (n2 : Option String) (fid2 : Nat) :
    upsertAttendance recs u d s2 n2 fid2 =
      ({ r1 with status := s2, notes := n2 },
       recs.map (fun r => if keyMatches u d r
         then { r with status := s2, notes := n2 } else r)) := by
  have hfind : recs.find? (keyMatches u d) = some r1 := by
    rw [find?_eq_head?_filter, hone]
    rfl
  simp only [upsertAttendance, hfind]

/-- The record returned by an upsert carries the written key, status and
notes, and the post-state holds exactly that record under the key (given the
uniqueness invariant held before). -/
theorem upsertAttendance_post (recs : List AttendanceRecord) (u d : Nat)
    (s : String) (n : Option String) (fid : Nat)
    (hinv : (recs.filter (keyMatches u d)).length ≤ 1) :
    (upsertAttendance recs u d s n fid).1.userId = u ∧
    (upsertAttendance recs u d s n fid).1.date = d ∧
    (upsertAttendance recs u d s n fid).1.status = s ∧
    (upsertAttendance recs u d s n fid).1.notes = n ∧
    (upsertAttendance recs u d s n fid).2.filter (keyMatches u d) =
      [(upsertAttendance recs u d s n fid).1] := by
  cases hfind : recs.find? (keyMatches u d) with
  | none =>
    have hnil : recs.filter (keyMatches u d) = [] := by
      rw [List.filter_eq_nil_iff]
      intro x hx
      exact List.find?_eq_none.mp hfind x hx
    simp only [upsertAttendance, hfind]
    refine ⟨by trivial, by trivial, by trivial, by trivial, ?_⟩
    rw [List.filter_append, hnil]
    simp [keyMatches]
  | some old =>
    have hkey : keyMatches u d old = true := List.find?_some hfind
    have hone : recs.filter (keyMatches u d) = [old] :=
      filter_eq_of_find?_of_le_one _ _ _ hfind hinv
    have hfields : old.userId = u ∧ old.date = d := by
      unfold keyMatches at hkey
      simp only [Bool.and_eq_true, beq_iff_eq] at hkey
      exact hkey
    simp only [upsertAttendance, hfind]
    refine ⟨hfields.1, hfields.2, by trivial, by trivial, ?_⟩
    rw [List.filter_map]
    have hc : recs.filter ((keyMatches u d) ∘ (fun r => if keyMatches u d r
        then { r with status := s, notes := n } else r)) =
        recs.filter (keyMatches u d) :=
      List.filter_congr (fun x _ => by
        simp only [Function.comp_apply]
        exact keyMatches_update u d s n x)
    rw [hc, hone]
    simp [hkey]

/-- Claim C6: for an authorized actor and a table satisfying the (userId,
date) uniqueness invariant, the self-service upsert succeeds with 201,
leaves exactly one row for the key carrying the written status and notes,
is idempotent (the same call again succeeds and changes nothing), and a
second upsert with a different status again succeeds and leaves exactly one
row carrying the newest status and notes — a total overwrite, never a
duplicate. -/
theorem c6_upsert_idempotent_unique (db : Db) (actor : User) (u d : Nat)
    (s s2 : String) (n n2 : Option String) (fid fid2 fid3 : Nat)
    (hcan : canAllocateAttendance db actor u = true)
    (hs : s ∈ selfServiceStatuses) (hs2 : s2 ∈ selfServiceStatuses)
    (hinv : countByUserDate db.attendance u d ≤ 1) :
    ∃ r1 db1,
      attendancePOST db (some actor) u d s n fid = (.success 201 r1, db1) ∧
      r1.userId = u ∧ r1.date = d ∧ r1.status = s ∧ r1.notes = normalizeNotes n ∧
      db1.attendance.filter (keyMatches u d) = [r1] ∧
      countByUserDate db1.attendance u d = 1 ∧
      attendancePOST db1 (some actor) u d s n fid2 = (.success 201 r1, db1) ∧
      (∃ r2 db2,
        attendancePOST db1 (some actor) u d s2 n2 fid3 = (.success 201 r2, db2) ∧
        r2.status = s2 ∧ r2.notes = normalizeNotes n2 ∧
        db2.attendance.filter (keyMatches u d) = [r2] ∧
        countByUserDate db2.attendance u d = 1) := by
  obtain ⟨h1, h2, h3, h4, h5⟩ :=
    upsertAttendance_post db.attendance u d s (normalizeNotes n) fid hinv
  set r1 := (upsertAttendance db.attendance u d s (normalizeNotes n) fid).1 with hr1def
  set A1 := (upsertAttendance db.attendance u d s (normalizeNotes n) fid).2 with hA1def
  have hcan1 : canAllocateAttendance { db with attendance := A1 } actor u = true := hcan
  have hkey1 : keyMatches u d r1 = true := by
    unfold keyMatches
    simp [h1, h2]
  have hpost1 : attendancePOST db (some actor) u d s n fid =
      (.success 201 r1, { db with attendance := A1 }) := by
    rw [hr1def, hA1def]
    simp [attendancePOST, hs, hcan]
  have hup2 : upsertAttendance A1 u d s (normalizeNotes n) fid2 = (r1, A1) := by
    rw [upsertAttendance_existing A1 u d r1 h5 s (normalizeNotes n) fid2]
    refine Prod.ext (record_update_self r1 s (normalizeNotes n) h3 h4) ?_
    apply map_eq_self_of_fixed
    intro x hx
    by_cases hk : keyMatches u d x = true
    · have hx1 : x ∈ A1.filter (keyMatches u d) := List.mem_filter.mpr ⟨hx, hk⟩
      rw [h5] at hx1
      obtain rfl := List.mem_singleton.mp hx1
      rw [if_pos hk]
      exact record_update_self r1 s (normalizeNotes n) h3 h4
    · rw [if_neg hk]
  have hup3 := upsertAttendance_existing A1 u d r1 h5 s2 (normalizeNotes n2) fid3
  have hfilter3 : (A1.map (fun r => if keyMatches u d r
      then { r with status := s2, notes := normalizeNotes n2 } else r)).filter
        (keyMatches u d) =
      [({ r1 with status := s2, notes := normalizeNotes n2 } : AttendanceRecord)] := by
    rw [List.filter_map]
    have hc2 : A1.filter ((keyMatches u d) ∘ (fun r => if keyMatches u d r
        then { r with status := s2, notes := normalizeNotes n2 } else r)) =
        A1.filter (keyMatches u d) :=
      List.filter_congr (fun x _ => by
        simp only [Function.comp_apply]
        exact keyMatches_update u d s2 (normalizeNotes n2) x)
    rw [hc2, h5]
    simp [hkey1]
  refine ⟨r1, { db with attendance := A1 }, hpost1, h1, h2, h3, h4, h5, ?_, ?_, ?_⟩
  · show countByUserDate A1 u d = 1
    rw [countByUserDate, h5]
    rfl
  · simp [attendancePOST, hs, hcan1, hup2]
  · refine ⟨({ r1 with status := s2, notes := normalizeNotes n2 } : AttendanceRecord),
      { db with attendance := A1.map (fun r => if keyMatches u d r
          then { r with status := s2, notes := normalizeNotes n2 } else r) },
      ?_, by trivial, by trivial, hfilter3, ?_⟩
    · simp [attendancePOST, hs2, hcan1, hup3]
    · show countByUserDate _ u d = 1
      rw [countByUserDate, hfilter3]
      rfl

/-- Claim C6 witness: U7 upserting attendance for day 9 succeeds on the
concrete database. -/
theorem c6_upsert_idempotent_unique_witness :
    ∃ r1 db1, attendancePOST exampleDb (some userU7) 7 9 "office" none 300 =
      (Outcome.success 201 r1, db1) := by
  obtain ⟨r1, db1, hpost, _⟩ :=
    c6_upsert_idempotent_unique exampleDb userU7 7 9 "office" "remote" none none
      300 301 302 (by decide) (by decide) (by decide) (by decide)
  exact ⟨r1, db1, hpost⟩

/-- Claim C7: the statistics reset succeeds exactly for a principal whose
own role is TRIBE_LEAD; every other principal receives 403 with the stored
state unchanged, and the decision never reads the delegations table, so a
currently-effective delegation changes nothing. -/
theorem c7_reset_tribe_lead_only (db : Db) (u : User) :
    ((∃ v db2, resetStatisticsPOST db (some u) = (.success 200 v, db2)) ↔
      u.role = UserRole.TRIBE_LEAD) ∧
    (u.role ≠ UserRole.TRIBE_LEAD →
      resetStatisticsPOST db (some u) =
        (.failure 403 "Only the Tribe Lead can reset statistics", db)) ∧
    (∀ dels, (resetStatisticsPOST { db with delegations := dels } (some u)).1 =
        (resetStatisticsPOST db (some u)).1) := by
  by_cases h : u.role = UserRole.TRIBE_LEAD
  · refine ⟨⟨fun _ => h, fun _ => ?_⟩, fun hne => absurd h hne, fun dels => ?_⟩
    · refine ⟨"All statistics have been reset successfully",
        { db with attendance := [], delegations := [], capacities := [] }, ?_⟩
      simp [resetStatisticsPOST, isTribeLead, h]
    · simp [resetStatisticsPOST, isTribeLead, h]
  · refine ⟨⟨?_, fun hr => absurd hr h⟩, fun _ => ?_, fun dels => ?_⟩
    · rintro ⟨v, db2, hres⟩
      exfalso
      simp [resetStatisticsPOST, isTribeLead, h] at hres
    · simp [resetStatisticsPOST, isTribeLead, h]
    · simp [resetStatisticsPOST, isTribeLead, h]

/-- Claim C7 witness: the chapter lead is refused and the database is left
unchanged. -/
theorem c7_reset_tribe_lead_only_witness :
    resetStatisticsPOST exampleDb (some chapterLead) =
      (Outcome.failure 403 "Only the Tribe Lead can reset statistics", exampleDb) :=
  (c7_reset_tribe_lead_only exampleDb chapterLead).2.1 (by decide)

/-- Claim C9: fetching an attendance record by record id checks only
authentication: for every authenticated principal an existing record is
returned together with the included owning user row (id, name, email),
regardless of the read set of the principal; a missing record is 404, a
missing principal is 401, and no input ever produces a 403. -/
theorem c9_by_id_no_authorization (db : Db) (u : User) (rid : Nat) :
    (∀ r, findAttendanceById db rid = some r →
      attendanceByIdGET db (some u) rid = .success 200 (r, findUser db r.userId)) ∧
    (findAttendanceById db rid = none →
      attendanceByIdGET db (some u) rid = .failure 404 "Attendance record not found") ∧
    (∀ p s m, attendanceByIdGET db p rid = .failure s m → s = 401 ∨ s = 404) ∧
    attendanceByIdGET db none rid = .failure 401 "Authentication required" := by
  refine ⟨?_, ?_, ?_, rfl⟩
  · intro r hr
    simp [attendanceByIdGET, hr]
  · intro hr
    simp [attendanceByIdGET, hr]
  · intro p s m hres
    cases p with
    | none =>
      simp only [attendanceByIdGET, Outcome.failure.injEq] at hres
      exact Or.inl hres.1.symm
    | some v =>
      cases hfind : findAttendanceById db rid with
      | none =>
        simp only [attendanceByIdGET, hfind, Outcome.failure.injEq] at hres
        exact Or.inr hres.1.symm
      | some r =>
        simp [attendanceByIdGET, hfind] at hres

/-- Claim C9 witness: R1 fetches the record of U7 by id although U7 is
outside the read set of R1. -/
theorem c9_by_id_no_authorization_witness :
    attendanceByIdGET exampleDb (some reporterR1) 100 =
      Outcome.success 200 (recordOfU7, some userU7) :=
  (c9_by_id_no_authorization exampleDb reporterR1 100).1 recordOfU7 (by decide)

/-- Claim C10: performed by a TRIBE_LEAD, the statistics reset empties the
attendance, delegation and office-capacity tables in one step and leaves
the user table — every id, role and manager link — exactly as it was. -/
theorem c10_reset_frame (db : Db) (u : User) (h : u.role = UserRole.TRIBE_LEAD) :
    resetStatisticsPOST db (some u) =
      (.success 200 "All statistics have been reset successfully",
       { users := db.users, attendance := [], delegations := [], capacities := [] }) := by
  simp [resetStatisticsPOST, isTribeLead, h]

/-- Claim C10 witness: the reset by the tribe lead on the concrete database
keeps the users and clears everything else. -/
theorem c10_reset_frame_witness :
    resetStatisticsPOST exampleDb (some tribeLead) =
      (Outcome.success 200 "All statistics have been reset successfully",
       { users := exampleDb.users, attendance := [], delegations := [],
         capacities := [] }) :=
  c10_reset_frame exampleDb tribeLead rfl

/-- roundPercent b c is the integer nearest to 100 b / c with ties rounded
up: it is the unique u with 2cu ≤ 200b + c < 2c(u + 1). -/
theorem roundPercent_char (b c : Nat) (hc : 0 < c) :
    2 * c * roundPercent b c ≤ 200 * b + c ∧
    200 * b + c < 2 * c * (roundPercent b c + 1) := by
  unfold roundPercent
  have h2c : 0 < 2 * c := by omega
  have hdm := Nat.div_add_mod (200 * b + c) (2 * c)
  have hml := Nat.mod_lt (200 * b + c) h2c
  constructor
  · calc 2 * c * ((200 * b + c) / (2 * c))
        ≤ 2 * c * ((200 * b + c) / (2 * c)) + (200 * b + c) % (2 * c) :=
          Nat.le_add_right _ _
      _ = 200 * b + c := hdm
  · calc 200 * b + c
        = 2 * c * ((200 * b + c) / (2 * c)) + (200 * b + c) % (2 * c) := hdm.symm
      _ < 2 * c * ((200 * b + c) / (2 * c)) + 2 * c := Nat.add_lt_add_left hml _
      _ = 2 * c * ((200 * b + c) / (2 * c) + 1) := by ring

/-- Claim C8: for a chapter- or tribe-lead caller the office-capacity GET
returns five weekday entries; each entry counts the office records of its
exact date as booked, takes the configured capacity of its weekday,
satisfies available = max(capacity − booked, 0) and
isOverbooked = (booked > capacity), has utilizationPercent = 0 when the
capacity is 0 and otherwise the rounded percentage 2cu ≤ 200b + c < 2c(u+1);
absent any configuration the defaults Mon 20, Tue 10, Wed 50, Thu 20, Fri 50
are materialized, and the concrete instance capacity 10, booked 12 yields
available 0, overbooked, 120 percent. -/
theorem c8_week_occupancy_math (db : Db) (u : User) (monday : Nat)
    (hrole : u.role = UserRole.CHAPTER_LEAD ∨ u.role = UserRole.TRIBE_LEAD) :
    officeCapacityGET db (some u) monday =
      (.success 200
        (weekData (materializeCapacities db.capacities) db.attendance monday),
       { db with capacities := materializeCapacities db.capacities }) ∧
    (∀ entry ∈ weekData (materializeCapacities db.capacities) db.attendance monday,
      entry.booked = countOfficeBookings db.attendance entry.date ∧
      entry.capacity = capacityFor (materializeCapacities db.capacities) entry.day ∧
      entry.available = max ((entry.capacity : Int) - (entry.booked : Int)) 0 ∧
      (entry.isOverbooked = true ↔ entry.capacity < entry.booked) ∧
      (entry.capacity = 0 → entry.utilizationPercent = 0) ∧
      (0 < entry.capacity →
        2 * entry.capacity * entry.utilizationPercent ≤
          200 * entry.booked + entry.capacity ∧
        200 * entry.booked + entry.capacity <
          2 * entry.capacity * (entry.utilizationPercent + 1))) ∧
    (db.capacities = [] → materializeCapacities db.capacities = defaultCapacities) ∧
    (weekData (materializeCapacities db.capacities) db.attendance monday).length = 5 ∧
    (dayOccupancy [{ dayOfWeek := "Monday", capacity := 10 }]
      officeDozen "Monday" 0).available = 0 ∧
    (dayOccupancy [{ dayOfWeek := "Monday", capacity := 10 }]
      officeDozen "Monday" 0).isOverbooked = true ∧
    (dayOccupancy [{ dayOfWeek := "Monday", capacity := 10 }]
      officeDozen "Monday" 0).utilizationPercent = 120 ∧
    (dayOccupancy [{ dayOfWeek := "Monday", capacity := 0 }]
      [] "Monday" 0).utilizationPercent = 0 := by
  refine ⟨?_, ?_, fun h => by simp [materializeCapacities, h],
    by simp [weekData, weekDayNames],
    by decide, by decide, by decide, by decide⟩
  · rcases hrole with h | h <;>
      simp [officeCapacityGET, isChapterLead, isTribeLead, h]
  · intro entry hentry
    unfold weekData at hentry
    obtain ⟨p, hp, rfl⟩ := List.mem_map.mp hentry
    simp only [dayOccupancy]
    refine ⟨by trivial, by trivial, ?_, ?_, ?_, ?_⟩
    · split_ifs with hgt
      · exact (max_eq_left (by omega)).symm
      · exact (max_eq_right (by omega)).symm
    · simp [decide_eq_true_eq]
    · intro h
      simp [h]
    · intro h
      rw [if_pos h]
      exact roundPercent_char _ _ h

/-- Claim C8 witness: the chapter lead reads the week view on the concrete
database. -/
theorem c8_week_occupancy_math_witness :
    officeCapacityGET exampleDb (some chapterLead) 0 =
      (Outcome.success 200
        (weekData (materializeCapacities exampleDb.capacities)
          exampleDb.attendance 0),
       { exampleDb with
          capacities := materializeCapacities exampleDb.capacities }) :=
  (c8_week_occupancy_math exampleDb chapterLead 0 (Or.inl rfl)).1

end OfficeTracker
